import Mathlib

/-!
Verification of the PPO rollout buffer and training loop of `src/ppo.py`
(classes `PPOBuffer` and `PPO`), shallowly embedded over `ℚ`.

Conventions of the embedding:
* numpy arrays of shape `(T, N)` are total functions `Nat → Nat → ℚ`
  (time index first, environment index second), with the intended extent
  recorded separately (`buf_size`, `num_envs`, ...).  Entries outside the
  intended extent are irrelevant to every statement below.
* floating point arithmetic is modelled by exact rational arithmetic.
* `np.random.randint(low, high)` is modelled by quantifying over an
  arbitrary index `idx` with `low ≤ idx < high`.
* a numpy `IndexError` / a failed `assert` is modelled by `Option`:
  `none` is the fatal error, `some` the successful result.
* `np.std` takes a real square root, which is in general irrational; it
  is modelled by passing the standard deviation as an extra argument
  `advStd` characterised (in the theorems that need it) by
  `0 ≤ advStd n` and `(advStd n)^2 = variance of the column n`.
-/

abbrev Arr2 : Type := Nat → Nat → ℚ
abbrev Arr3 : Type := Nat → Nat → Nat → ℚ

/-- Sum of the first `T` entries of a one-dimensional slice. -/
def colSum (T : Nat) (x : Nat → ℚ) : ℚ := ∑ t in Finset.range T, x t

/-- `np.mean` along one axis of extent `T`. -/
def colMean (T : Nat) (x : Nat → ℚ) : ℚ := colSum T x / T

/-- `np.var` (population variance, `ddof = 0`) along one axis of extent `T`. -/
def colVar (T : Nat) (x : Nat → ℚ) : ℚ :=
  (∑ t in Finset.range T, (x t - colMean T x) ^ 2) / T

/-- `np.mean` of a whole `(T, N)` array. -/
def mean2 (T N : Nat) (x : Arr2) : ℚ :=
  (∑ t in Finset.range T, ∑ n in Finset.range N, x t n) / (T * N)

/-- `np.var` of a whole `(T, N)` array. -/
def var2 (T N : Nat) (x : Arr2) : ℚ :=
  (∑ t in Finset.range T, ∑ n in Finset.range N, (x t n - mean2 T N x) ^ 2) / (T * N)

/--
State of `PPOBuffer` (ppo.py lines 13-103).  `act_dim` stands for
`len(self.act_dim)`.  `mean_val` and `var_returns_val` are the attributes
created by `compute_gae` (lines 69-70); before `compute_gae` they do not
exist in Python and are unobservable here because `get_stats` checks
`calculated_gae` first, so they are modelled with initial value `0`.
The source's `del self.values` (line 72) removes the attribute; no later
code reads it before `reset` recreates it, so the field is simply kept.
-/
structure PPOBuffer where
  buf_size : Nat
  num_envs : Nat
  zdim : Nat
  act_dim : Nat
  num_frames : Nat
  gamma : ℚ
  lam : ℚ
  ptr : Nat
  obs : Arr3
  actions : Arr3
  rewards : Arr2
  returns : Arr2
  values : Arr2      -- shape (buf_size + 1, num_envs)
  log_probs : Arr2
  advantage : Arr2
  calculated_gae : Bool
  mean_val : ℚ
  var_returns_val : ℚ

namespace PPOBuffer

/--
`reset` (lines 30-37): reallocates all seven arrays to zeros.  It touches
neither `ptr` nor `calculated_gae` nor the GAE statistics.
-/
def reset (b : PPOBuffer) : PPOBuffer :=
  { b with
    obs := fun _ _ _ => 0
    actions := fun _ _ _ => 0
    rewards := fun _ _ => 0
    returns := fun _ _ => 0
    values := fun _ _ => 0
    log_probs := fun _ _ => 0
    advantage := fun _ _ => 0 }

/--
`__init__` (lines 18-28): stores the hyperparameters, sets `ptr = 0` and
`calculated_gae = False`, then calls `reset()`.
-/
def init (buf_size num_envs zdim act_dim num_frames : Nat) (gamma lam : ℚ) :
    PPOBuffer :=
  reset
    { buf_size := buf_size
      num_envs := num_envs
      zdim := zdim
      act_dim := act_dim
      num_frames := num_frames
      gamma := gamma
      lam := lam
      ptr := 0
      obs := fun _ _ _ => 0
      actions := fun _ _ _ => 0
      rewards := fun _ _ => 0
      returns := fun _ _ => 0
      values := fun _ _ => 0
      log_probs := fun _ _ => 0
      advantage := fun _ _ => 0
      calculated_gae := false
      mean_val := 0
      var_returns_val := 0 }

/-- The five per-step records passed to `save`. -/
structure SaveInput where
  obs : Nat → Nat → ℚ
  act : Nat → Nat → ℚ
  reward : Nat → ℚ
  value : Nat → ℚ
  log_prob : Nat → ℚ

/--
`save` (lines 39-45): writes row `ptr` of each per-step array and
increments `ptr`.  The source performs no explicit bounds check: when
`ptr ≥ buf_size` the very first write, `self.obs[self.ptr] = obs`
(line 40), raises a numpy `IndexError` (index out of bounds for an axis
of length `buf_size`) before anything is written — note `values` has
`buf_size + 1` rows, but the `obs` write fails first.  The raised error
is modelled as `none`.
-/
def save (b : PPOBuffer) (i : SaveInput) : Option PPOBuffer :=
  if b.ptr < b.buf_size then
    some
      { b with
        obs := fun t => if t = b.ptr then i.obs else b.obs t
        actions := fun t => if t = b.ptr then i.act else b.actions t
        rewards := fun t => if t = b.ptr then i.reward else b.rewards t
        values := fun t => if t = b.ptr then i.value else b.values t
        log_probs := fun t => if t = b.ptr then i.log_prob else b.log_probs t
        ptr := b.ptr + 1 }
  else none

/-- Iterated `save`, propagating the first fatal error. -/
def save_many (b : PPOBuffer) : List SaveInput → Option PPOBuffer
  | [] => some b
  | i :: is =>
    match b.save i with
    | none => none
    | some b' => save_many b' is

/--
One reverse pass of `scipy.signal.lfilter([1], [1, -discount])` on a
flipped time axis (line 57) computes `y[t] = x[t] + discount * y[t+1]`
with `y[T] = 0`.  The recursion is written structurally on the number
`m = T - t` of remaining steps so that it evaluates by kernel reduction.
-/
def dsum_col (discount : ℚ) (x : Nat → ℚ) : Nat → Nat → ℚ
  | 0, _ => 0
  | m + 1, t => x t + discount * dsum_col discount x m (t + 1)

/--
`discounted_sum` (lines 47-57) applied to a `(T, N)` array along
`axis = 0`: each environment column is filtered independently.
-/
def discounted_sum (x : Arr2) (discount : ℚ) (T : Nat) : Arr2 :=
  fun t n => dsum_col discount (fun s => x s n) (T - t) t

/--
The values array after line 62 `self.values[self.ptr] = next_value`:
the bootstrap row is written at index `ptr` (not at index `buf_size`).
-/
def values_boot (b : PPOBuffer) (next_value : Nat → ℚ) : Arr2 :=
  fun t => if t = b.ptr then next_value else b.values t

/--
Line 63 `deltas = self.rewards + self.gamma * self.values[1:] - self.values[:-1]`,
evaluated after the bootstrap write.
-/
def deltas (b : PPOBuffer) (next_value : Nat → ℚ) : Arr2 :=
  fun t n =>
    b.rewards t n + b.gamma * values_boot b next_value (t + 1) n -
      values_boot b next_value t n

/-- Line 64, the advantage before the in-place normalization of lines 66-68. -/
def raw_advantage (b : PPOBuffer) (next_value : Nat → ℚ) : Arr2 :=
  discounted_sum (deltas b next_value) (b.gamma * b.lam) b.buf_size

/--
`compute_gae` (lines 59-72).  `advStd n` stands for
`self.advantage.std(axis=0)[n]`, the square root of the per-column
population variance of `raw_advantage`; it is an argument because the
square root of a rational is in general irrational (theorems characterise
it by `0 ≤ advStd n` and `(advStd n)^2 = colVar buf_size (raw_advantage · n)`).
Lines 66-68 normalize per environment column with `ε = 1e-5`; line 69
takes the per-row variance across environments of `returns - values[:-1]`
and means it over rows; line 70 sums `values` across environments per row
(all `buf_size + 1` rows) and means the row sums.
-/
def compute_gae (b : PPOBuffer) (next_value : Nat → ℚ) (advStd : Nat → ℚ) :
    PPOBuffer :=
  let vals := values_boot b next_value
  let adv := raw_advantage b next_value
  let rets := discounted_sum b.rewards b.gamma b.buf_size
  { b with
    values := vals
    returns := rets
    advantage := fun t n =>
      (adv t n - colMean b.buf_size (fun s => adv s n)) / (advStd n + 1 / 100000)
    var_returns_val :=
      colMean b.buf_size (fun t => colVar b.num_envs (fun n => rets t n - vals t n))
    mean_val :=
      colMean (b.buf_size + 1) (fun t => colSum b.num_envs (fun n => vals t n))
    calculated_gae := true }

/-- `can_train` (lines 74-75), with Python integer (signed) arithmetic. -/
def can_train (b : PPOBuffer) : Bool :=
  decide ((b.ptr : ℤ) - (b.num_frames : ℤ) - 1 > 0)

/--
`get_stats` (lines 77-85): the failed `assert` is `none`; otherwise the
five scalars of lines 79-85 in order.  (When `returns` is constant,
`np.var(self.returns)` is `0.0` and numpy's float division yields
`nan`/`inf` with a warning rather than raising; the rational division by
zero below yields `0`.  No theorem states the value of the fifth scalar
in that situation.)
-/
def get_stats (b : PPOBuffer) : Option (ℚ × ℚ × ℚ × ℚ × ℚ) :=
  if b.calculated_gae then
    some
      (mean2 b.buf_size b.num_envs b.rewards,
       mean2 b.buf_size b.num_envs b.returns,
       mean2 b.buf_size b.num_envs b.advantage,
       b.mean_val,
       b.var_returns_val / var2 b.buf_size b.num_envs b.returns)
  else none

/-- `get_ptr` (lines 87-88). -/
def get_ptr (b : PPOBuffer) : Nat := b.ptr

/-- The tuple returned by `get` (lines 96-103), with named components. -/
structure Sample where
  idx : Nat
  obs : List (Nat → Nat → ℚ)
  act : Nat → Nat → ℚ
  ret : Nat → ℚ
  log_prob : Nat → ℚ
  adv : Nat → ℚ

/--
`get` (lines 90-103): `idx` models the draw
`np.random.randint(low=self.num_frames, high=self.ptr)` (theorems assume
`num_frames ≤ idx < ptr`, the support of that draw).  Only `obs` is
sliced with `idx_range = slice(idx - num_frames, idx)`; `actions`,
`returns`, `log_probs` and `advantage` are indexed at the single row `idx`.
-/
def get (b : PPOBuffer) (idx : Nat) : Sample :=
  { idx := idx
    obs := (List.range b.num_frames).map fun k => b.obs (idx - b.num_frames + k)
    act := b.actions idx
    ret := b.returns idx
    log_prob := b.log_probs idx
    adv := b.advantage idx }

end PPOBuffer

namespace PPO

def EPOCHS : Nat := 2
def GAMMA : ℚ := 9 / 10
def LAMBDA : ℚ := 19 / 20
def EPSILON : ℚ := 1 / 5
def ENTROPY_BETA : ℚ := 1 / 5
def CRITIC_DISCOUNT : ℚ := 1 / 2

/-- `torch.clamp(x, lo, hi) = min(max(x, lo), hi)` elementwise. -/
def clamp (x lo hi : ℚ) : ℚ := min (max x lo) hi

/-- Line 214: `surr1 = ratio * adv`. -/
def surr1 (ratio adv : ℚ) : ℚ := ratio * adv

/--
Line 215 as written in the source:
`surr2 = torch.clamp(ratio, 1 + self.EPSILON, 1 - self.EPSILON) * adv` —
the clamp receives `lo = 1 + ε` and `hi = 1 - ε`, in this order.
-/
def surr2 (ratio adv : ℚ) : ℚ := clamp ratio (1 + EPSILON) (1 - EPSILON) * adv

/-- The elementwise term inside the mean of line 217, `min(surr1, surr2)`. -/
def surrogate (ratio adv : ℚ) : ℚ := min (surr1 ratio adv) (surr2 ratio adv)

/--
The same term with the clamp bounds in the order the spec states,
`clip(ratio, 1 - ε, 1 + ε) * adv` (the standard PPO clipped surrogate);
kept for comparison with `surrogate`.
-/
def surrogate_spec (ratio adv : ℚ) : ℚ :=
  min (surr1 ratio adv) (clamp ratio (1 - EPSILON) (1 + EPSILON) * adv)

/--
The number of minibatch optimisation steps performed by `PPO.train`
(lines 191-223): zero when the `can_train` gate of lines 200-202 fails
(the method prints and returns, running no minibatch and no
`opt.step()`), otherwise `EPOCHS` epochs of `get_ptr() // env.num_envs`
steps each (`env.num_envs` equals the buffer's `num_envs`: both come
from the same vectorised environment).
-/
def trainUpdateCount (b : PPOBuffer) : Nat :=
  if b.can_train then EPOCHS * (b.ptr / b.num_envs) else 0

end PPO

/--
A concrete buffer used in witnesses and counterexamples: dimensions and
`ptr` as given, `rewards`/`values`/`advantage` and a two-dimensional view
of `actions` as given, other arrays zero, hyperparameters as in `PPO`
(`γ = 0.9`, `λ = 0.95`), flag and GAE statistics as given.
-/
def mkBuf (buf_size num_envs num_frames ptr : Nat)
    (rewards values actions advantage : Arr2) (gae : Bool) (mv vrv : ℚ) :
    PPOBuffer :=
  { buf_size := buf_size
    num_envs := num_envs
    zdim := 1
    act_dim := 1
    num_frames := num_frames
    gamma := 9 / 10
    lam := 19 / 20
    ptr := ptr
    obs := fun _ _ _ => 0
    actions := fun t n _ => actions t n
    rewards := rewards
    returns := fun _ _ => 0
    values := values
    log_probs := fun _ _ => 0
    advantage := advantage
    calculated_gae := gae
    mean_val := mv
    var_returns_val := vrv }

/-- The all-zero `(T, N)` array. -/
def zeroArr : Arr2 := fun _ _ => 0

/-- A `SaveInput` with all records zero. -/
def zeroInput : PPOBuffer.SaveInput :=
  { obs := fun _ _ => 0
    act := fun _ _ => 0
    reward := fun _ => 0
    value := fun _ => 0
    log_prob := fun _ => 0 }

/-- The backward filter pass evaluates to the discounted forward sum. -/
theorem dsum_col_eq_sum (d : ℚ) (x : Nat → ℚ) :
    ∀ m t : Nat, PPOBuffer.dsum_col d x m t = ∑ k in Finset.range m, d ^ k * x (t + k) := by
  intro m
  induction m with
  | zero => intro t; simp [PPOBuffer.dsum_col]
  | succ m ih =>
    intro t
    rw [PPOBuffer.dsum_col, ih (t + 1), Finset.sum_range_succ']
    simp only [pow_zero, one_mul, Nat.add_zero, Finset.mul_sum]
    rw [add_comm]
    congr 1
    refine Finset.sum_congr rfl fun k _ => ?_
    have hx : t + 1 + k = t + (k + 1) := by omega
    rw [← hx, pow_succ]
    ring

/--
C4: `discounted_sum` on a `(T, N)` array returns an array of the same
shape with `y[t] = ∑_{k=0}^{T-1-t} discount^k * x[t+k]` in every
environment column; in particular, with `discount = 0.9` the input
column `[1, 1, 1]` yields `[2.71, 1.9, 1.0]` (exactly, in rational
arithmetic).
-/
theorem discounted_sum_closed_form :
    (∀ (x : Arr2) (d : ℚ) (T t n : Nat),
        PPOBuffer.discounted_sum x d T t n =
          ∑ k in Finset.range (T - t), d ^ k * x (t + k) n) ∧
    PPOBuffer.discounted_sum (fun _ _ => 1) (9 / 10) 3 0 0 = 271 / 100 ∧
    PPOBuffer.discounted_sum (fun _ _ => 1) (9 / 10) 3 1 0 = 19 / 10 ∧
    PPOBuffer.discounted_sum (fun _ _ => 1) (9 / 10) 3 2 0 = 1 :=
  ⟨fun x d T t n => dsum_col_eq_sum d (fun s => x s n) (T - t) t,
   by norm_num [PPOBuffer.discounted_sum, PPOBuffer.dsum_col],
   by norm_num [PPOBuffer.discounted_sum, PPOBuffer.dsum_col],
   by norm_num [PPOBuffer.discounted_sum, PPOBuffer.dsum_col]⟩

/--
C1 (counterexample to the claim as stated): with `buf_size = 2` and
`ptr = 1` (a rollout cut short by `done`), `compute_gae(1)` leaves row
`buf_size = 2` of the values array at `0` — the bootstrap value `1` is
written into row `ptr = 1` instead.
-/
theorem compute_gae_bootstrap_row_cx :
    (PPOBuffer.compute_gae (mkBuf 2 1 1 1 zeroArr zeroArr zeroArr zeroArr false 0 0)
        (fun _ => 1) (fun _ => 0)).values 2 0 = 0 ∧
    (PPOBuffer.compute_gae (mkBuf 2 1 1 1 zeroArr zeroArr zeroArr zeroArr false 0 0)
        (fun _ => 1) (fun _ => 0)).values 1 0 = 1 ∧
    (1 : ℚ) ≠ 0 := by
  refine ⟨?_, ?_, by norm_num⟩ <;>
    norm_num [PPOBuffer.compute_gae, PPOBuffer.values_boot, mkBuf, zeroArr]

/--
C1 (amended): `compute_gae(bootstrap_value)` writes `bootstrap_value`
into row `ptr` of the values array (which is row `buf_size` exactly when
the buffer is full); with the values array so updated it computes the
TD-residuals `delta[t,n] = reward[t,n] + γ·value[t+1,n] - value[t,n]`
for every `t < buf_size` (hence for all collected steps) and sets, before
normalization, `advantage = DiscountedSum(delta, γ·λ)` and
`returns = DiscountedSum(reward, γ)`, both written out here as the
discounted forward sums.
-/
theorem compute_gae_spec (b : PPOBuffer) (v s : Nat → ℚ) (t n : Nat) :
    PPOBuffer.values_boot b v b.ptr n = v n ∧
    (b.ptr = b.buf_size → PPOBuffer.values_boot b v b.buf_size n = v n) ∧
    (PPOBuffer.compute_gae b v s).values = PPOBuffer.values_boot b v ∧
    PPOBuffer.deltas b v t n =
      b.rewards t n + b.gamma * PPOBuffer.values_boot b v (t + 1) n -
        PPOBuffer.values_boot b v t n ∧
    PPOBuffer.raw_advantage b v t n =
      ∑ k in Finset.range (b.buf_size - t),
        (b.gamma * b.lam) ^ k * PPOBuffer.deltas b v (t + k) n ∧
    (PPOBuffer.compute_gae b v s).returns t n =
      ∑ k in Finset.range (b.buf_size - t), b.gamma ^ k * b.rewards (t + k) n := by
  refine ⟨by simp [PPOBuffer.values_boot], ?_, rfl, rfl, ?_, ?_⟩
  · intro h
    simp [PPOBuffer.values_boot, ← h]
  · exact dsum_col_eq_sum (b.gamma * b.lam) (fun u => PPOBuffer.deltas b v u n)
      (b.buf_size - t) t
  · exact dsum_col_eq_sum b.gamma (fun u => b.rewards u n) (b.buf_size - t) t

/--
Witness for `compute_gae_spec`: on a full buffer (`ptr = buf_size = 1`)
the implication's hypothesis holds and the bootstrap value is indeed
found in row `buf_size`.
-/
theorem compute_gae_spec_witness :
    PPOBuffer.values_boot (mkBuf 1 1 1 1 zeroArr zeroArr zeroArr zeroArr false 0 0)
      (fun _ => 1)
      (mkBuf 1 1 1 1 zeroArr zeroArr zeroArr zeroArr false 0 0).buf_size 0 = 1 :=
  (compute_gae_spec (mkBuf 1 1 1 1 zeroArr zeroArr zeroArr zeroArr false 0 0)
    (fun _ => 1) (fun _ => 0) 0 0).2.1 rfl

/--
C2: line 215 passes the clamp bounds in the order `(1 + ε, 1 - ε)`, so
`torch.clamp` (which computes `min(max(x, lo), hi)`, and therefore
returns `hi` whenever `lo > hi`) is constantly `1 - ε = 0.8`.  At
`ratio = 1.5, adv = 1` the code's surrogate term is `min(1.5, 0.8) = 0.8`,
not the `min(1.5, 1.2) = 1.2` the spec states (the spec's clip order
gives `surrogate_spec`); at `ratio = 1.5, adv = -1` the two coincide at
`-1.5`, masking the bug for negative advantages.
-/
theorem clamp_bounds_swapped :
    PPO.surrogate (3 / 2) 1 = 4 / 5 ∧
    PPO.surrogate_spec (3 / 2) 1 = 6 / 5 ∧
    PPO.surrogate (3 / 2) (-1) = -(3 / 2) ∧
    PPO.surrogate_spec (3 / 2) (-1) = -(3 / 2) ∧
    ∀ ratio : ℚ, PPO.clamp ratio (1 + PPO.EPSILON) (1 - PPO.EPSILON) = 4 / 5 := by
  refine ⟨?_, ?_, ?_, ?_, fun ratio => ?_⟩
  · norm_num [PPO.surrogate, PPO.surr1, PPO.surr2, PPO.clamp, PPO.EPSILON]
  · norm_num [PPO.surrogate_spec, PPO.surr1, PPO.clamp, PPO.EPSILON]
  · norm_num [PPO.surrogate, PPO.surr1, PPO.surr2, PPO.clamp, PPO.EPSILON]
  · norm_num [PPO.surrogate_spec, PPO.surr1, PPO.clamp, PPO.EPSILON]
  · have h1 : (1 + PPO.EPSILON : ℚ) ≤ max ratio (1 + PPO.EPSILON) := le_max_right _ _
    have h2 : (1 - PPO.EPSILON : ℚ) ≤ max ratio (1 + PPO.EPSILON) := by
      refine le_trans ?_ h1
      norm_num [PPO.EPSILON]
    rw [PPO.clamp, min_eq_right h2]
    norm_num [PPO.EPSILON]

/--
C3 (counterexample to the claim as stated): on a buffer with `ptr = 1`,
`reset()` leaves `ptr` at `1`, not `0` — lines 30-37 only reallocate the
arrays and never touch `self.ptr`.
-/
theorem reset_ptr_cx :
    (PPOBuffer.reset (mkBuf 2 1 1 1 zeroArr zeroArr zeroArr zeroArr false 0 0)).ptr = 1 ∧
    (1 : Nat) ≠ 0 := by
  exact ⟨rfl, by norm_num⟩

/--
C3 (amended): after `reset()` all seven buffer arrays (observations,
actions, rewards, returns, values, log-probs, advantages) contain only
zeros, but `ptr` keeps its previous value; `ptr` is `0` after
construction only because `__init__` sets `ptr = 0` before calling
`reset()`.
-/
theorem reset_zeroes (b : PPOBuffer) (t n z : Nat)
    (buf_size num_envs zdim act_dim num_frames : Nat) (gamma lam : ℚ) :
    (b.reset).obs t n z = 0 ∧
    (b.reset).actions t n z = 0 ∧
    (b.reset).rewards t n = 0 ∧
    (b.reset).returns t n = 0 ∧
    (b.reset).values t n = 0 ∧
    (b.reset).log_probs t n = 0 ∧
    (b.reset).advantage t n = 0 ∧
    (b.reset).ptr = b.ptr ∧
    (PPOBuffer.init buf_size num_envs zdim act_dim num_frames gamma lam).ptr = 0 :=
  ⟨rfl, rfl, rfl, rfl, rfl, rfl, rfl, rfl, rfl⟩

/-- A `save` below capacity succeeds, increments `ptr` and changes no
dimension and no flag. -/
theorem save_succ (b : PPOBuffer) (i : PPOBuffer.SaveInput)
    (h : b.ptr < b.buf_size) :
    ∃ b', b.save i = some b' ∧ b'.ptr = b.ptr + 1 ∧
      b'.buf_size = b.buf_size ∧ b'.calculated_gae = b.calculated_gae := by
  refine ⟨{ b with
      obs := fun t => if t = b.ptr then i.obs else b.obs t
      actions := fun t => if t = b.ptr then i.act else b.actions t
      rewards := fun t => if t = b.ptr then i.reward else b.rewards t
      values := fun t => if t = b.ptr then i.value else b.values t
      log_probs := fun t => if t = b.ptr then i.log_prob else b.log_probs t
      ptr := b.ptr + 1 }, ?_, rfl, rfl, rfl⟩
  rw [PPOBuffer.save, if_pos h]

/-- A `save` at or above capacity is the fatal `IndexError`. -/
theorem save_overflow_none (b : PPOBuffer) (i : PPOBuffer.SaveInput)
    (h : b.buf_size ≤ b.ptr) : b.save i = none := by
  rw [PPOBuffer.save, if_neg (by omega)]

/-- `save_many` succeeds while the writes stay within capacity, moving
`ptr` by the number of inputs. -/
theorem save_many_fills (inputs : List PPOBuffer.SaveInput) :
    ∀ b : PPOBuffer, b.ptr + inputs.length ≤ b.buf_size →
      ∃ b', PPOBuffer.save_many b inputs = some b' ∧
        b'.ptr = b.ptr + inputs.length ∧ b'.buf_size = b.buf_size := by
  induction inputs with
  | nil => exact fun b _ => ⟨b, rfl, by simp, rfl⟩
  | cons i is ih =>
    intro b h
    simp only [List.length_cons] at h
    have hlt : b.ptr < b.buf_size := by omega
    obtain ⟨b1, hb1, hp1, hs1, _⟩ := save_succ b i hlt
    obtain ⟨b', h1, h2, h3⟩ := ih b1 (by omega)
    rw [PPOBuffer.save_many, hb1]
    refine ⟨b', h1, ?_, by omega⟩
    simp only [List.length_cons]
    omega

/--
C5: from a freshly constructed (hence freshly reset, `ptr = 0`) buffer,
`buffer_size` calls to `save` all succeed and leave `ptr = buffer_size`;
the next `save` is the fatal `IndexError` (`none`), and in general `save`
never succeeds once `ptr ≥ buffer_size`.
-/
theorem save_fill_then_overflow (buf_size num_envs zdim act_dim num_frames : Nat)
    (gamma lam : ℚ) (inputs : List PPOBuffer.SaveInput)
    (h : inputs.length = buf_size) :
    (∃ b', PPOBuffer.save_many
        (PPOBuffer.init buf_size num_envs zdim act_dim num_frames gamma lam)
          inputs = some b' ∧
      b'.ptr = buf_size ∧ ∀ i, b'.save i = none) ∧
    ∀ (b : PPOBuffer) (i : PPOBuffer.SaveInput),
      b.buf_size ≤ b.ptr → b.save i = none := by
  refine ⟨?_, fun b i hb => save_overflow_none b i hb⟩
  obtain ⟨b', h1, h2, h3⟩ :=
    save_many_fills inputs
      (PPOBuffer.init buf_size num_envs zdim act_dim num_frames gamma lam)
      (by simp [PPOBuffer.init, PPOBuffer.reset, h])
  have hptr : b'.ptr = buf_size := by
    simpa [PPOBuffer.init, PPOBuffer.reset, h] using h2
  have hbs : b'.buf_size = buf_size := by
    simpa [PPOBuffer.init, PPOBuffer.reset] using h3
  exact ⟨b', h1, hptr, fun i => save_overflow_none b' i (by omega)⟩

/-- Witness for `save_fill_then_overflow` at `buffer_size = 1` with one
all-zero input. -/
theorem save_fill_then_overflow_witness :
    [zeroInput].length = 1 ∧
    (PPOBuffer.save_many (PPOBuffer.init 1 1 1 1 1 0 0) [zeroInput]).map
      PPOBuffer.ptr = some 1 := by
  obtain ⟨b', h1, h2, _⟩ :=
    (save_fill_then_overflow 1 1 1 1 1 0 0 [zeroInput] rfl).1
  exact ⟨rfl, by rw [h1]; simpa using h2⟩

/--
C6 (counterexample to the claim as stated): with `num_frames = 2`,
`ptr = 3`, `actions[t] = t` and drawn index `idx = 2`, the action
component returned by `get()` is the single row `actions[2] = 2`; the
claimed temporal window `[idx - num_frames, idx) = [0, 2)` holds the rows
`0` and `1`, neither of which equals the returned value — so `get()` does
not return the temporal window of actions (it slices only the
observations; returns, log-probs and advantage are likewise single rows).
-/
theorem get_actions_not_window_cx :
    ((mkBuf 3 1 2 3 zeroArr zeroArr (fun t _ => (t : ℚ)) zeroArr false 0 0).get 2).act 0 0 = 2 ∧
    (mkBuf 3 1 2 3 zeroArr zeroArr (fun t _ => (t : ℚ)) zeroArr false 0 0).actions 0 0 0 = 0 ∧
    (mkBuf 3 1 2 3 zeroArr zeroArr (fun t _ => (t : ℚ)) zeroArr false 0 0).actions 1 0 0 = 1 ∧
    (2 : ℚ) ≠ 0 ∧ (2 : ℚ) ≠ 1 := by
  refine ⟨?_, ?_, ?_, by norm_num, by norm_num⟩ <;> norm_num [mkBuf, PPOBuffer.get]

/--
C6 (amended): for every buffer state with `ptr > num_frames` and every
index `idx` in the support `[num_frames, ptr)` of the uniform draw,
`get()` returns `idx` itself (strictly below `ptr`), the temporal window
`[idx - num_frames, idx)` of the observations — whose length is exactly
`num_frames` — and the single rows at index `idx` of actions, returns,
log-probs and advantage.
-/
theorem get_sample_shape (b : PPOBuffer) (idx : Nat)
    (_h1 : b.num_frames ≤ idx) (h2 : idx < b.ptr) :
    (b.get idx).obs.length = b.num_frames ∧
    (b.get idx).idx < b.ptr ∧
    (∀ k, k < b.num_frames →
      (b.get idx).obs.getD k (fun _ _ => 0) = b.obs (idx - b.num_frames + k)) ∧
    (b.get idx).act = b.actions idx ∧
    (b.get idx).ret = b.returns idx ∧
    (b.get idx).log_prob = b.log_probs idx ∧
    (b.get idx).adv = b.advantage idx := by
  refine ⟨by simp [PPOBuffer.get], h2, ?_, rfl, rfl, rfl, rfl⟩
  intro k hk
  simp [PPOBuffer.get, List.getD, List.getElem?_map, List.getElem?_range hk]

/-- Witness for `get_sample_shape` at `num_frames = 2`, `ptr = 3`,
`idx = 2`. -/
theorem get_sample_shape_witness :
    (2 : Nat) ≤ 2 ∧ (2 : Nat) < 3 ∧
    ((mkBuf 3 1 2 3 zeroArr zeroArr zeroArr zeroArr false 0 0).get 2).obs.length = 2 :=
  ⟨by norm_num, by norm_num,
   (get_sample_shape (mkBuf 3 1 2 3 zeroArr zeroArr zeroArr zeroArr false 0 0) 2
     (by decide) (by decide)).1⟩

/-- A values array with one nonzero row, used to exhibit the `mean_val`
aggregation of `compute_gae`. -/
def valsTwoEnvs : Arr2 := fun t n => if t = 0 then (if n = 0 then 1 else 3) else 0

/--
C7 (counterexample to the claim as stated): with `buf_size = 1`,
`num_envs = 2`, `values[0] = [1, 3]` and bootstrap `0`, the fourth scalar
returned by `get_stats()` is `2` — the mean over rows of the values
summed across environments (`np.mean(np.sum(values, axis=1))`,
line 70) — while the mean value estimate `np.mean(values)` is `1`.
-/
theorem get_stats_mean_val_cx :
    ∃ r5 : ℚ,
      (PPOBuffer.compute_gae (mkBuf 1 2 1 1 zeroArr valsTwoEnvs zeroArr zeroArr false 0 0)
          (fun _ => 0) (fun _ => 0)).get_stats = some (0, 0, 0, 2, r5) ∧
      mean2 2 2 (PPOBuffer.values_boot
        (mkBuf 1 2 1 1 zeroArr valsTwoEnvs zeroArr zeroArr false 0 0) (fun _ => 0)) = 1 ∧
      (2 : ℚ) ≠ 1 := by
  refine ⟨0, ?_, ?_, by norm_num⟩ <;>
    norm_num [PPOBuffer.get_stats, PPOBuffer.compute_gae, PPOBuffer.values_boot,
      PPOBuffer.raw_advantage, PPOBuffer.deltas, PPOBuffer.discounted_sum,
      PPOBuffer.dsum_col, mean2, var2, colMean, colSum, colVar, mkBuf, zeroArr,
      valsTwoEnvs, Finset.sum_range_succ, Finset.sum_range_zero]

/--
C7 (amended): `get_stats()` fails with the fatal assertion exactly when
`calculated_gae` is still false; otherwise it returns five scalars: the
mean reward, the mean return, the mean of the stored (normalized)
advantage, the `mean_val` diagnostic — which is the mean over the
`buf_size + 1` value rows of the value summed across environments, not
the mean value estimate — and the ratio of `var_returns_val` (the mean
over rows of the across-environment variance of `returns - values[:-1]`)
to the variance of all return entries.
-/
theorem get_stats_spec (b : PPOBuffer) (v s : Nat → ℚ) :
    (b.get_stats = none ↔ b.calculated_gae = false) ∧
    (b.calculated_gae = true →
      b.get_stats = some
        (mean2 b.buf_size b.num_envs b.rewards,
         mean2 b.buf_size b.num_envs b.returns,
         mean2 b.buf_size b.num_envs b.advantage,
         b.mean_val,
         b.var_returns_val / var2 b.buf_size b.num_envs b.returns)) ∧
    (PPOBuffer.compute_gae b v s).mean_val =
      colMean (b.buf_size + 1)
        (fun t => colSum b.num_envs (fun n => PPOBuffer.values_boot b v t n)) := by
  refine ⟨?_, fun h => by simp [PPOBuffer.get_stats, h], rfl⟩
  rcases hb : b.calculated_gae <;> simp [PPOBuffer.get_stats, hb]

/-- Witness for `get_stats_spec`: on a buffer whose GAE flag is set and
whose arrays are zero with `mean_val = 7`, `get_stats` succeeds with the
stale diagnostic in fourth position. -/
theorem get_stats_spec_witness :
    (mkBuf 1 1 1 1 zeroArr zeroArr zeroArr zeroArr true 7 0).calculated_gae = true ∧
    (mkBuf 1 1 1 1 zeroArr zeroArr zeroArr zeroArr true 7 0).get_stats =
      some (0, 0, 0, 7, 0) := by
  have h := (get_stats_spec (mkBuf 1 1 1 1 zeroArr zeroArr zeroArr zeroArr true 7 0)
    (fun _ => 0) (fun _ => 0)).2.1 rfl
  refine ⟨rfl, ?_⟩
  rw [h]
  norm_num [mean2, var2, mkBuf, zeroArr]

/--
C8: `can_train()` is true iff `ptr - num_frames - 1 > 0` (false exactly
when `ptr ≤ num_frames + 1`), and when it is false `PPO.train` performs
zero minibatch steps — in particular no gradient update — returning
early without error.
-/
theorem can_train_iff (b : PPOBuffer) :
    (b.can_train = true ↔ b.num_frames + 1 < b.ptr) ∧
    (b.can_train = false ↔ b.ptr ≤ b.num_frames + 1) ∧
    (b.can_train = false → PPO.trainUpdateCount b = 0) := by
  refine ⟨?_, ?_, fun h => by simp [PPO.trainUpdateCount, h]⟩ <;>
    simp only [PPOBuffer.can_train, decide_eq_true_eq, decide_eq_false_iff_not] <;>
    omega

/-- Witness for `can_train_iff`: `ptr = 2`, `num_frames = 2` cannot
train and yields zero update steps. -/
theorem can_train_iff_witness :
    (mkBuf 2 1 2 2 zeroArr zeroArr zeroArr zeroArr false 0 0).can_train = false ∧
    PPO.trainUpdateCount (mkBuf 2 1 2 2 zeroArr zeroArr zeroArr zeroArr false 0 0) = 0 := by
  have h : (mkBuf 2 1 2 2 zeroArr zeroArr zeroArr zeroArr false 0 0).can_train = false := by
    decide
  exact ⟨h, (can_train_iff (mkBuf 2 1 2 2 zeroArr zeroArr zeroArr zeroArr false 0 0)).2.2 h⟩

/-- Deviations from the mean sum to zero. -/
theorem sum_sub_colMean (T : Nat) (x : Nat → ℚ) (hT : 0 < T) :
    ∑ t in Finset.range T, (x t - colMean T x) = 0 := by
  have hTQ : (T : ℚ) ≠ 0 := Nat.cast_ne_zero.mpr hT.ne'
  simp only [Finset.sum_sub_distrib, Finset.sum_const, Finset.card_range, nsmul_eq_mul,
    colMean, colSum]
  field_simp

/-- Centering a column and dividing by any constant gives mean zero. -/
theorem colMean_center_scale (T : Nat) (x : Nat → ℚ) (c : ℚ) (hT : 0 < T) :
    colMean T (fun t => (x t - colMean T x) / c) = 0 := by
  have h := sum_sub_colMean T x hT
  unfold colMean colSum at h ⊢
  rw [← Finset.sum_div, h]
  simp

/-- Centering a column and dividing by a constant divides the population
variance by the square of the constant. -/
theorem colVar_center_scale (T : Nat) (x : Nat → ℚ) (c : ℚ) (hT : 0 < T) :
    colVar T (fun t => (x t - colMean T x) / c) = colVar T x / c ^ 2 := by
  unfold colVar
  rw [colMean_center_scale T x c hT]
  simp only [sub_zero, div_pow]
  rw [← Finset.sum_div, div_div, div_div, mul_comm (c ^ 2) (T : ℚ)]

/--
C9 (counterexample to the claim as stated): on a buffer whose raw
advantage column is constant (all zero), the normalized advantage column
stored by `compute_gae` has population variance `0`, so its standard
deviation is `0` — there is no nonnegative standard deviation of that
column within `ε = 1e-5` of `1`.  (The division is still well defined:
the denominator is `std + 1e-5 = 1e-5`.)
-/
theorem advantage_std_not_one_cx :
    colVar 2 (fun t =>
      (PPOBuffer.compute_gae (mkBuf 2 1 1 2 zeroArr zeroArr zeroArr zeroArr false 0 0)
        (fun _ => 0) (fun _ => 0)).advantage t 0) = 0 ∧
    ¬ ∃ q : ℚ, 0 ≤ q ∧ q ^ 2 = 0 ∧ |q - 1| ≤ 1 / 100000 := by
  constructor
  · norm_num [PPOBuffer.compute_gae, PPOBuffer.raw_advantage, PPOBuffer.deltas,
      PPOBuffer.discounted_sum, PPOBuffer.dsum_col, PPOBuffer.values_boot, mkBuf,
      zeroArr, colVar, colMean, colSum, Finset.sum_range_succ, Finset.sum_range_zero]
  · rintro ⟨q, _, hq2, hq1⟩
    have hq : q = 0 := by
      have := sq_eq_zero_iff.mp hq2
      exact this
    rw [hq] at hq1
    norm_num at hq1

/--
C9 (amended): after `compute_gae`, for each environment column `n` the
stored advantage is the raw advantage column with its column mean
subtracted, divided by its column standard deviation plus `ε = 1e-5`.
Each resulting column has mean exactly `0`; the denominator is at least
`ε`, so there is no division by zero even on a constant column; and the
resulting column's variance is the raw variance divided by `(std + ε)²`,
i.e. its standard deviation is `std / (std + ε)` — close to `1` only
when the raw deviation `std` is large relative to `ε`, and `0` (not `≈1`)
on a constant column.
-/
theorem advantage_normalized (b : PPOBuffer) (v s : Nat → ℚ) (n : Nat)
    (hT : 0 < b.buf_size) (hs : 0 ≤ s n)
    (hvar : (s n) ^ 2 = colVar b.buf_size (fun t => PPOBuffer.raw_advantage b v t n)) :
    colMean b.buf_size (fun t => (PPOBuffer.compute_gae b v s).advantage t n) = 0 ∧
    (1 / 100000 : ℚ) ≤ s n + 1 / 100000 ∧
    colVar b.buf_size (fun t => (PPOBuffer.compute_gae b v s).advantage t n) =
      colVar b.buf_size (fun t => PPOBuffer.raw_advantage b v t n) /
        (s n + 1 / 100000) ^ 2 ∧
    (s n / (s n + 1 / 100000)) ^ 2 =
      colVar b.buf_size (fun t => (PPOBuffer.compute_gae b v s).advantage t n) := by
  have hadv : (fun t => (PPOBuffer.compute_gae b v s).advantage t n) =
      fun t => ((fun u => PPOBuffer.raw_advantage b v u n) t -
        colMean b.buf_size (fun u => PPOBuffer.raw_advantage b v u n)) /
          (s n + 1 / 100000) := rfl
  refine ⟨?_, by linarith, ?_, ?_⟩
  · rw [hadv]
    exact colMean_center_scale b.buf_size (fun u => PPOBuffer.raw_advantage b v u n)
      (s n + 1 / 100000) hT
  · rw [hadv]
    exact colVar_center_scale b.buf_size (fun u => PPOBuffer.raw_advantage b v u n)
      (s n + 1 / 100000) hT
  · rw [hadv, colVar_center_scale b.buf_size (fun u => PPOBuffer.raw_advantage b v u n)
      (s n + 1 / 100000) hT, ← hvar, div_pow]

/-- Witness for `advantage_normalized` on a buffer with constant (zero)
raw advantage column: the hypotheses hold with `std = 0` and the
normalized column mean is `0`. -/
theorem advantage_normalized_witness :
    ((0 : ℚ) ^ 2 = colVar 2 (fun t =>
      PPOBuffer.raw_advantage (mkBuf 2 1 1 2 zeroArr zeroArr zeroArr zeroArr false 0 0)
        (fun _ => 0) t 0)) ∧
    colMean 2 (fun t =>
      (PPOBuffer.compute_gae (mkBuf 2 1 1 2 zeroArr zeroArr zeroArr zeroArr false 0 0)
        (fun _ => 0) (fun _ => 0)).advantage t 0) = 0 := by
  have hvar : ((0 : ℚ) ^ 2) = colVar 2 (fun t =>
      PPOBuffer.raw_advantage (mkBuf 2 1 1 2 zeroArr zeroArr zeroArr zeroArr false 0 0)
        (fun _ => 0) t 0) := by
    norm_num [PPOBuffer.raw_advantage, PPOBuffer.deltas, PPOBuffer.discounted_sum,
      PPOBuffer.dsum_col, PPOBuffer.values_boot, mkBuf, zeroArr, colVar, colMean,
      colSum, Finset.sum_range_succ, Finset.sum_range_zero]
  exact ⟨hvar,
    (advantage_normalized (mkBuf 2 1 1 2 zeroArr zeroArr zeroArr zeroArr false 0 0)
      (fun _ => 0) (fun _ => 0) 0 (by norm_num [mkBuf]) le_rfl hvar).1⟩

/--
C10: `calculated_gae` is set by `compute_gae` and never cleared:
`reset()` (which reallocates arrays only) and successful `save`s leave it
untouched.  Consequently a `get_stats()` immediately after a `reset()`
that followed a `compute_gae` does not fail the GAE assertion: it returns
zero mean reward, zero mean return and zero mean advantage (the freshly
zeroed arrays) together with the stale `mean_val` diagnostic of the
previous rollout.
-/
theorem calculated_gae_persists (b : PPOBuffer) (v s : Nat → ℚ)
    (i : PPOBuffer.SaveInput) :
    (PPOBuffer.compute_gae b v s).calculated_gae = true ∧
    (PPOBuffer.reset b).calculated_gae = b.calculated_gae ∧
    (∀ b', b.save i = some b' → b'.calculated_gae = b.calculated_gae) ∧
    (∃ r5 : ℚ,
      (PPOBuffer.reset (PPOBuffer.compute_gae b v s)).get_stats =
        some (0, 0, 0, (PPOBuffer.compute_gae b v s).mean_val, r5)) := by
  refine ⟨rfl, rfl, ?_, ?_⟩
  · intro b' hb'
    by_cases h : b.ptr < b.buf_size
    · rw [PPOBuffer.save, if_pos h] at hb'
      cases hb'
      rfl
    · rw [PPOBuffer.save, if_neg h] at hb'
      exact absurd hb' (by simp)
  · refine ⟨(PPOBuffer.compute_gae b v s).var_returns_val /
      var2 (PPOBuffer.compute_gae b v s).buf_size
        (PPOBuffer.compute_gae b v s).num_envs (fun _ _ => 0), ?_⟩
    have hflag : (PPOBuffer.reset (PPOBuffer.compute_gae b v s)).calculated_gae = true := rfl
    rw [PPOBuffer.get_stats, if_pos hflag]
    simp [PPOBuffer.reset, mean2]

/-- Witness for `calculated_gae_persists`: after `compute_gae` on a
fresh one-step buffer, a successful `save` would preserve the flag, and
`get_stats` after `reset` still succeeds with the stale diagnostic. -/
theorem calculated_gae_persists_witness :
    (PPOBuffer.compute_gae (mkBuf 1 1 1 1 zeroArr zeroArr zeroArr zeroArr false 0 0)
      (fun _ => 0) (fun _ => 0)).calculated_gae = true ∧
    (∃ r5 : ℚ,
      (PPOBuffer.reset (PPOBuffer.compute_gae
          (mkBuf 1 1 1 1 zeroArr zeroArr zeroArr zeroArr false 0 0)
          (fun _ => 0) (fun _ => 0))).get_stats =
        some (0, 0, 0,
          (PPOBuffer.compute_gae (mkBuf 1 1 1 1 zeroArr zeroArr zeroArr zeroArr false 0 0)
            (fun _ => 0) (fun _ => 0)).mean_val, r5)) := by
  have h := calculated_gae_persists (mkBuf 1 1 1 1 zeroArr zeroArr zeroArr zeroArr false 0 0)
    (fun _ => 0) (fun _ => 0) zeroInput
  exact ⟨h.1, h.2.2.2⟩
